import Mathlib

/-!
# cansat-visual: light binding, per-frame uniform update and the debug toggle

A shallow embedding of `src/main.cpp`.

* A C++ `float` is represented by the rational number it denotes.  The only
  float arithmetic in the program is the division of a colour channel by
  `255.0f`; it is modelled exactly as an IEEE 754 binary32 division
  (round to nearest, ties to even) by `f32div`.
* `uint32_t` is a `Nat` reduced modulo `2 ^ 32`, `unsigned char` a `Nat` with
  the side condition `≤ 255`, `int32_t` handles are `Int`.
* Calls into raylib and Dear ImGui are recorded, in program order, in a list
  of `Call`s.  What those libraries return (`GetShaderLocation`,
  `IsKeyPressed`) or write through a pointer (`ImGui::Begin`) is an input of
  the model.
-/

namespace CansatVisual

/-! ## Floats -/

/-- Nearest integer to `num / den`, ties going to the even neighbour. -/
def roundNearestEven (num den : Nat) : Nat :=
  let q := num / den
  let r := num % den
  if 2 * r < den then q
  else if den < 2 * r then q + 1
  else if q % 2 = 0 then q else q + 1

/-- Search for the least `k` with `2 ^ 23 * b ≤ a * 2 ^ k`, starting at `k`. -/
def f32ShiftFrom (a b : Nat) : Nat → Nat → Nat
  | 0, k => k
  | fuel + 1, k => if 2 ^ 23 * b ≤ a * 2 ^ k then k else f32ShiftFrom a b fuel (k + 1)

/-- The scaling exponent of the quotient `a / b`: the least `k` for which
`a * 2 ^ k / b` has a 24 bit integer part.  Exponents of binary32 normal
numbers stay below 150. -/
def f32Shift (a b : Nat) : Nat := f32ShiftFrom a b 150 0

/-- The binary32 quotient `(float)a / (float)b` of two integers that are
exactly representable as floats, for `0 ≤ a ≤ b`, `0 < b`: the exact quotient
rounded to a 24 bit significand, to nearest and ties to even.  (For
`a ≤ b ≤ 255` the result is a normal number or zero, so neither overflow nor
gradual underflow has to be modelled.) -/
def f32div (a b : Nat) : ℚ :=
  if a = 0 then 0
  else (roundNearestEven (a * 2 ^ f32Shift a b) b : ℚ) / 2 ^ f32Shift a b

/-! ## raylib data -/

/-- raylib `Vector3`: three floats. -/
structure Vector3 where
  x : ℚ
  y : ℚ
  z : ℚ
  deriving DecidableEq, Repr

/-- raymath `Vector3Zeros`. -/
def Vector3Zeros : Vector3 := ⟨0, 0, 0⟩

/-- raylib `Color`: four `unsigned char` channels (each `≤ 255`). -/
structure Color where
  r : Nat
  g : Nat
  b : Nat
  a : Nat
  deriving DecidableEq, Repr

/-- Every channel of the colour fits an `unsigned char`. -/
def Color.WellFormed (c : Color) : Prop :=
  c.r ≤ 255 ∧ c.g ≤ 255 ∧ c.b ≤ 255 ∧ c.a ≤ 255

/-- raylib `Shader`, identified by its program id.  The slot
`locs[SHADER_LOC_VECTOR_VIEW]` that `main` fills is kept in `MainState`. -/
structure Shader where
  id : Nat
  deriving DecidableEq, Repr

/-- raylib `Camera` (the fields `main` sets; `projection` is a constant). -/
structure Camera where
  position : Vector3
  target : Vector3
  up : Vector3
  fovy : ℚ
  deriving DecidableEq, Repr

/-- The payload of one `SetShaderValue` call together with its type tag. -/
inductive UniformValue where
  /-- `SHADER_UNIFORM_INT` -/
  | int (v : Int)
  /-- `SHADER_UNIFORM_VEC3` -/
  | vec3 (x y z : ℚ)
  /-- `SHADER_UNIFORM_VEC4` -/
  | vec4 (x y z w : ℚ)
  deriving DecidableEq, Repr

/-- The library calls the program makes. -/
inductive Call where
  | GetShaderLocation (shader : Shader) (name : String)
  | SetShaderValue (shader : Shader) (loc : Int) (value : UniformValue)
  | ImGui_ImplRaylib_ProcessEvents
  | ImGui_ImplRaylib_NewFrame
  | ImGui_NewFrame
  | IsKeyPressed_KEY_GRAVE
  | ImGui_Begin (name : String)
  | ImGui_Text (text : String)
  | ImGui_End
  | ImGui_EndFrame
  | ImGui_Render
  | BeginDrawing
  | ClearBackground (color : Color)
  | BeginMode3D (camera : Camera)
  | BeginShaderMode (shader : Shader)
  | DrawModel (position : Vector3) (scale : ℚ)
  | EndShaderMode
  | EndMode3D
  | ImGui_GetDrawData
  | ImGui_ImplRaylib_RenderDrawData
  | EndDrawing
  deriving DecidableEq, Repr

/-- The call writes a shader uniform. -/
def Call.isUniformWrite : Call → Bool
  | .SetShaderValue _ _ _ => true
  | _ => false

/-- The call declares a Dear ImGui window. -/
def Call.isWindowDeclaration : Call → Bool
  | .ImGui_Begin _ => true
  | _ => false

/-- The call belongs to the UI step or to the draw step of a frame. -/
def Call.isUiOrDraw : Call → Bool
  | .GetShaderLocation _ _ => false
  | .SetShaderValue _ _ _ => false
  | .ImGui_ImplRaylib_ProcessEvents => false
  | _ => true

/-- The uniform lookup of the graphics library: the location of a name in a
shader, `-1` when the shader has no such uniform. -/
abbrev Lookup := Shader → String → Int

namespace render

/-- The enum `Light::Type : int32_t`. -/
inductive LightType where
  | Directional
  | Point
  deriving DecidableEq, Repr

/-- The enumerator values: `Directional = 0`, `Point = 1`. -/
def LightType.toInt : LightType → Int
  | .Directional => 0
  | .Point => 1

/-- The struct `Light::Bindings`. -/
structure Bindings where
  enabledBinding : Int := 0
  typeBinding : Int := 0
  positionBinding : Int := 0
  targetBinding : Int := 0
  colorBinding : Int := 0
  deriving DecidableEq, Repr

/-- The struct `Light` (the `color` member has no default here: `main` always
gives one). -/
structure Light where
  type : LightType := .Point
  position : Vector3 := Vector3Zeros
  target : Vector3 := Vector3Zeros
  color : Color
  enabled : Bool := true
  bindings : Bindings := {}
  deriving DecidableEq, Repr

/-- The text `std::format("lights[{}].<field>", lightIndex)` produces. -/
def uniformName (lightIndex : Nat) (field : String) : String :=
  "lights[" ++ toString lightIndex ++ "]." ++ field

/-- The result of `CreateLight`: the light with its bindings filled in, the
value of the static counter afterwards, and the lookups made. -/
structure Created where
  light : Light
  lightIndex : Nat
  calls : List Call

/-- The function `render::CreateLight`; `lightIndex` is the value of its static
`uint32_t` counter on entry. -/
def CreateLight (lookup : Lookup) (shader : Shader) (light : Light)
    (lightIndex : Nat) : Created :=
  { light :=
      { light with
        bindings :=
          { enabledBinding := lookup shader (uniformName lightIndex "enabled")
            typeBinding := lookup shader (uniformName lightIndex "type")
            positionBinding := lookup shader (uniformName lightIndex "position")
            targetBinding := lookup shader (uniformName lightIndex "target")
            colorBinding := lookup shader (uniformName lightIndex "color") } }
    lightIndex := (lightIndex + 1) % 2 ^ 32
    calls :=
      [ .GetShaderLocation shader (uniformName lightIndex "enabled"),
        .GetShaderLocation shader (uniformName lightIndex "type"),
        .GetShaderLocation shader (uniformName lightIndex "position"),
        .GetShaderLocation shader (uniformName lightIndex "target"),
        .GetShaderLocation shader (uniformName lightIndex "color") ] }

/-- The function `render::UpdateLight`: the five `SetShaderValue` calls it
makes, in order. -/
def UpdateLight (shader : Shader) (light : Light) : List Call :=
  let lightEnabled : Int := if light.enabled then 1 else 0
  let lightType : Int := light.type.toInt
  [ .SetShaderValue shader light.bindings.enabledBinding (.int lightEnabled),
    .SetShaderValue shader light.bindings.typeBinding (.int lightType),
    .SetShaderValue shader light.bindings.positionBinding
      (.vec3 light.position.x light.position.y light.position.z),
    .SetShaderValue shader light.bindings.targetBinding
      (.vec3 light.target.x light.target.y light.target.z),
    .SetShaderValue shader light.bindings.colorBinding
      (.vec4 (f32div light.color.r 255) (f32div light.color.g 255)
        (f32div light.color.b 255) (f32div light.color.a 255)) ]

end render

/-! ## The uniform table of the graphics library -/

/-- The uniforms of every shader program: the value last written at a location,
if any. -/
abbrev UniformTable := Shader → Int → Option UniformValue

/-- Modelled from the spec: raylib's `SetShaderValue` is library code that is
not part of the repository.  A write to a valid location stores the value
there; "if a binding handle is invalid, the underlying write is a no-op (never
an error)", the invalid handle being `-1`. -/
def SetShaderValue (table : UniformTable) (shader : Shader) (loc : Int)
    (value : UniformValue) : UniformTable :=
  if -1 < loc then
    fun s l => if s = shader ∧ l = loc then some value else table s l
  else table

/-- The effect of one call on the uniform table. -/
def applyCall (table : UniformTable) : Call → UniformTable
  | .SetShaderValue shader loc value => SetShaderValue table shader loc value
  | _ => table

/-- The effect of a sequence of calls on the uniform table. -/
def applyCalls (table : UniformTable) (calls : List Call) : UniformTable :=
  calls.foldl applyCall table

/-- A table in which nothing has been written yet. -/
def emptyTable : UniformTable := fun _ _ => none

/-! ## The function `main` -/

/-- The variables of `main` that outlive one loop iteration, with the two
function-local statics (`lightIndex` of `CreateLight`, `isDebugOpen` of the
loop body). -/
structure MainState where
  shader : Shader
  /-- the slot `shader.locs[SHADER_LOC_VECTOR_VIEW]` -/
  viewLoc : Int
  position : Vector3
  camera : Camera
  lights : List render.Light
  lightIndex : Nat
  isDebugOpen : Bool

/-- What the outside world contributes to one loop iteration. -/
structure FrameInput where
  /-- the result of `IsKeyPressed(KEY_GRAVE)` -/
  keyGravePressed : Bool
  /-- the value `ImGui::Begin("Debug", &isDebugOpen)` leaves in `isDebugOpen`,
  as a function of the value it finds there (Dear ImGui stores `false` when
  the close widget of the window is activated) -/
  imguiBegin : Bool → Bool

/-- Modelled from the spec: the colour macro `RED` of raylib.h, which is not
part of the repository; the spec gives it as "RED (255,0,0,255)". -/
def RED : Color := ⟨255, 0, 0, 255⟩

/-- The light `main` registers; `red` stands for raylib's colour constant
`RED`. -/
def mainLight (camera : Camera) (red : Color) : render.Light :=
  { type := .Point
    position := camera.position
    color := red
    enabled := true }

/-- The part of `main` before the loop.  `shader` is what `LoadShader` returned,
`red` stands for raylib's colour constant `RED`. -/
def mainInit (lookup : Lookup) (shader : Shader) (red : Color) : MainState :=
  let position : Vector3 := ⟨0, 3, 0⟩
  let camera : Camera :=
    { position := ⟨15, 6, 0⟩
      target := position
      up := ⟨0, 1, 0⟩
      fovy := 45 }
  let created := render.CreateLight lookup shader (mainLight camera red) 0
  { shader := shader
    viewLoc := lookup shader "viewPos"
    position := position
    camera := camera
    lights := [created.light]
    lightIndex := created.lightIndex
    isDebugOpen := false }

/-- The key check of the UI step: `if (IsKeyPressed(KEY_GRAVE)) isDebugOpen = !isDebugOpen;` -/
def keyCheck (keyGravePressed : Bool) (isDebugOpen : Bool) : Bool :=
  if keyGravePressed then !isDebugOpen else isDebugOpen

/-- The block "ImGui render frame" of the loop body: the new value of
`isDebugOpen` and the calls made. -/
def uiFrame (input : FrameInput) (isDebugOpen : Bool) : Bool × List Call :=
  let afterKeyCheck := keyCheck input.keyGravePressed isDebugOpen
  (input.imguiBegin afterKeyCheck,
    [ .ImGui_ImplRaylib_NewFrame,
      .ImGui_NewFrame,
      .IsKeyPressed_KEY_GRAVE,
      .ImGui_Begin "Debug",
      .ImGui_Text "piccee",
      .ImGui_End,
      .ImGui_EndFrame,
      .ImGui_Render ])

/-- The drawing block of the loop body. -/
def drawFrame (s : MainState) : List Call :=
  [ .BeginDrawing,
    .ClearBackground ⟨33, 33, 33, 255⟩,
    .BeginMode3D s.camera,
    .BeginShaderMode s.shader,
    .DrawModel s.position 1,
    .EndShaderMode,
    .EndMode3D,
    .ImGui_GetDrawData,
    .ImGui_ImplRaylib_RenderDrawData,
    .EndDrawing ]

/-- The write of the view position at the head of the loop body: the array
`cameraPosition` is filled from the variable `position`. -/
def viewPositionWrite (s : MainState) : Call :=
  .SetShaderValue s.shader s.viewLoc (.vec3 s.position.x s.position.y s.position.z)

/-- One iteration of the loop of `main`: the state afterwards and the calls
made, in order. -/
def frame (s : MainState) (input : FrameInput) : MainState × List Call :=
  let ui := uiFrame input s.isDebugOpen
  ({ s with isDebugOpen := ui.1 },
    [.ImGui_ImplRaylib_ProcessEvents, viewPositionWrite s]
      ++ s.lights.flatMap (render.UpdateLight s.shader)
      ++ ui.2
      ++ drawFrame s)

/-- The loop of `main` over the frames for which `WindowShouldClose()` is
false: the state after the last one and the calls of each frame. -/
def runFrames : MainState → List FrameInput → MainState × List (List Call)
  | s, [] => (s, [])
  | s, input :: rest =>
    let step := frame s input
    let tail := runFrames step.1 rest
    (tail.1, step.2 :: tail.2)

/-- A run of `CreateLight` calls, one for each requested `(shader, light)`,
threading the static counter from one call to the next.  Every entry pairs the
value of `lightIndex` on entry to the call with what the call produced. -/
def createRun (lookup : Lookup) :
    List (Shader × render.Light) → Nat → List (Nat × render.Created)
  | [], _ => []
  | request :: rest, lightIndex =>
    let created := render.CreateLight lookup request.1 request.2 lightIndex
    (lightIndex, created) :: createRun lookup rest created.lightIndex

/-- The index used to format the uniform names of the `k`-th call (0-based) of a
process run, in which the counter starts at `0`. -/
def indexUsed (lookup : Lookup) (requests : List (Shader × render.Light))
    (k : Nat) : Option Nat :=
  ((createRun lookup requests 0)[k]?).map (fun entry => entry.1)

/-- The binding set the `k`-th call (0-based) of a process run stores in its
light. -/
def bindingsOf (lookup : Lookup) (requests : List (Shader × render.Light))
    (k : Nat) : Option render.Bindings :=
  ((createRun lookup requests 0)[k]?).map (fun entry => entry.2.light.bindings)

/-- The value of `isDebugOpen` after a sequence of frames. -/
def debugOpenAfter (s : MainState) (inputs : List FrameInput) : Bool :=
  (runFrames s inputs).1.isDebugOpen

/-- The number of windows each frame of a run declares. -/
def windowsDeclared (s : MainState) (inputs : List FrameInput) : List Nat :=
  (runFrames s inputs).2.map
    (fun calls => (calls.filter Call.isWindowDeclaration).length)

/-- A shader interface that declares a single light uniform, `lights[1].color`,
at location 7. -/
def sampleLookup : Lookup :=
  fun _ name => if name = "lights[1].color" then 7 else -1

/-- A shader interface that declares the five uniforms of `lights[0]` at the
locations 0 to 4 and `viewPos` at location 5. -/
def fullLookup : Lookup :=
  fun _ name =>
    if name = "lights[0].enabled" then 0
    else if name = "lights[0].type" then 1
    else if name = "lights[0].position" then 2
    else if name = "lights[0].target" then 3
    else if name = "lights[0].color" then 4
    else if name = "viewPos" then 5
    else -1

/-- A shader interface without any uniform: every lookup gives the sentinel. -/
def emptyLookup : Lookup := fun _ _ => -1

/-- Reading a decimal numeral back: the value of a list of digit characters. -/
def decimalValue (digits : List Char) : Nat :=
  digits.foldl (fun acc c => acc * 10 + (c.toNat - 48)) 0

/-! ## The frame loop -/

theorem runFrames_nil (s : MainState) : runFrames s [] = (s, []) := rfl

theorem runFrames_cons (s : MainState) (input : FrameInput) (rest : List FrameInput) :
    runFrames s (input :: rest) =
      ((runFrames (frame s input).1 rest).1,
        (frame s input).2 :: (runFrames (frame s input).1 rest).2) := rfl

theorem frame_isDebugOpen (s : MainState) (input : FrameInput) :
    (frame s input).1.isDebugOpen =
      input.imguiBegin (keyCheck input.keyGravePressed s.isDebugOpen) := rfl

theorem frame_position (s : MainState) (input : FrameInput) :
    (frame s input).1.position = s.position := rfl

theorem frame_shader (s : MainState) (input : FrameInput) :
    (frame s input).1.shader = s.shader := rfl

theorem frame_viewLoc (s : MainState) (input : FrameInput) :
    (frame s input).1.viewLoc = s.viewLoc := rfl

theorem frame_camera (s : MainState) (input : FrameInput) :
    (frame s input).1.camera = s.camera := rfl

theorem runFrames_camera (s : MainState) (inputs : List FrameInput) :
    (runFrames s inputs).1.camera = s.camera := by
  induction inputs generalizing s with
  | nil => rfl
  | cons input rest ih => rw [runFrames_cons]; exact (ih _).trans (frame_camera s input)

theorem runFrames_position (s : MainState) (inputs : List FrameInput) :
    (runFrames s inputs).1.position = s.position := by
  induction inputs generalizing s with
  | nil => rfl
  | cons input rest ih => rw [runFrames_cons]; exact (ih _).trans (frame_position s input)

theorem runFrames_shader (s : MainState) (inputs : List FrameInput) :
    (runFrames s inputs).1.shader = s.shader := by
  induction inputs generalizing s with
  | nil => rfl
  | cons input rest ih => rw [runFrames_cons]; exact (ih _).trans (frame_shader s input)

theorem runFrames_viewLoc (s : MainState) (inputs : List FrameInput) :
    (runFrames s inputs).1.viewLoc = s.viewLoc := by
  induction inputs generalizing s with
  | nil => rfl
  | cons input rest ih => rw [runFrames_cons]; exact (ih _).trans (frame_viewLoc s input)

/-- With the key reported and `ImGui::Begin` leaving the flag alone, frames
flip the flag once each. -/
theorem debugOpenAfter_toggles (s : MainState) (inputs : List FrameInput)
    (hkey : ∀ input ∈ inputs, input.keyGravePressed = true)
    (hbegin : ∀ input ∈ inputs, ∀ v, input.imguiBegin v = v) :
    debugOpenAfter s inputs =
      (if inputs.length % 2 = 0 then s.isDebugOpen else !s.isDebugOpen) := by
  induction inputs generalizing s with
  | nil => simp [debugOpenAfter, runFrames_nil]
  | cons input rest ih =>
    have hk := hkey input (List.mem_cons_self _ _)
    have hb := hbegin input (List.mem_cons_self _ _)
    have ih1 := ih (frame s input).1
      (fun i hi => hkey i (List.mem_cons_of_mem _ hi))
      (fun i hi => hbegin i (List.mem_cons_of_mem _ hi))
    have hstep : debugOpenAfter s (input :: rest) = debugOpenAfter (frame s input).1 rest := by
      simp [debugOpenAfter, runFrames_cons]
    rw [hstep, ih1, frame_isDebugOpen, hb, hk]
    simp only [keyCheck, if_true, List.length_cons]
    rcases Nat.mod_two_eq_zero_or_one rest.length with h | h
    · have h2 : (rest.length + 1) % 2 = 1 := by omega
      simp [h, h2]
    · have h2 : (rest.length + 1) % 2 = 0 := by omega
      simp [h, h2]

/-! ## Claims about `UpdateLight` and the frame -/

/-- C3: for every light, enabled or not, `UpdateLight` makes exactly five
`SetShaderValue` calls, in this order: `enabled` as the integer 1 or 0 to
`enabledBinding`, `type` as an integer (Directional 0, Point 1) to
`typeBinding`, the three floats of `position` to `positionBinding`, the three
floats of `target` to `targetBinding`, and four floats (the colour channels
divided by 255) to `colorBinding`; a disabled light still makes all five. -/
theorem updateLight_five_writes (shader : Shader) (light : render.Light) :
    render.UpdateLight shader light =
      [ .SetShaderValue shader light.bindings.enabledBinding
          (.int (if light.enabled = true then 1 else 0)),
        .SetShaderValue shader light.bindings.typeBinding
          (.int (match light.type with
            | .Directional => 0
            | .Point => 1)),
        .SetShaderValue shader light.bindings.positionBinding
          (.vec3 light.position.x light.position.y light.position.z),
        .SetShaderValue shader light.bindings.targetBinding
          (.vec3 light.target.x light.target.y light.target.z),
        .SetShaderValue shader light.bindings.colorBinding
          (.vec4 (f32div light.color.r 255) (f32div light.color.g 255)
            (f32div light.color.b 255) (f32div light.color.a 255)) ]
    ∧ (render.UpdateLight shader light).length = 5
    ∧ (render.UpdateLight shader light).all Call.isUniformWrite = true
    ∧ (render.UpdateLight shader { light with enabled := false }).length = 5
    ∧ (render.UpdateLight shader { light with enabled := false })[0]? =
        some (.SetShaderValue shader light.bindings.enabledBinding (.int 0)) := by
  refine ⟨?_, rfl, rfl, rfl, rfl⟩
  cases h : light.type <;> simp [render.UpdateLight, render.LightType.toInt, h]

/-- C6 (the code at the failing input): every frame declares exactly one
window, whatever the value of `isDebugOpen`, because
`ImGui::Begin("Debug", ...)` is called unconditionally.  Starting from
`isDebugOpen = false`, two frames with the toggle key pressed leave the flag
`true` and then `false` after the key check, and both frames declare one
window: the frame in which the flag is `false` does not declare zero windows.
So does a frame in which the key is not pressed and the flag stays `false`. -/
theorem debug_window_declared_every_frame (lookup : Lookup) (shader : Shader)
    (red : Color) (s : MainState) (input : FrameInput) :
    ((frame s input).2.filter Call.isWindowDeclaration).length = 1
    ∧ debugOpenAfter (mainInit lookup shader red) [⟨true, id⟩] = true
    ∧ debugOpenAfter (mainInit lookup shader red) [⟨true, id⟩, ⟨true, id⟩] = false
    ∧ windowsDeclared (mainInit lookup shader red) [⟨true, id⟩, ⟨true, id⟩] = [1, 1]
    ∧ debugOpenAfter (mainInit lookup shader red) [⟨false, id⟩] = false
    ∧ windowsDeclared (mainInit lookup shader red) [⟨false, id⟩] = [1] := by
  refine ⟨?_, rfl, rfl, ?_, rfl, ?_⟩
  · have hlights : (s.lights.flatMap (render.UpdateLight s.shader)).filter
        Call.isWindowDeclaration = [] := by
      induction s.lights with
      | nil => rfl
      | cons l rest ih =>
        rw [List.flatMap_cons, List.filter_append, ih]
        rfl
    simp only [frame, List.filter_append, hlights]
    rfl
  all_goals
    simp [windowsDeclared, runFrames, frame, uiFrame, drawFrame, viewPositionWrite,
      mainInit, render.UpdateLight, Call.isWindowDeclaration, List.filter]

/-- C7 fails as stated: in one frame the key press is reported and
`ImGui::Begin` stores `false` through the pointer it is given (the close widget
of the window); after this single frame the flag is `false`, its initial value,
although the number of frames is odd. -/
theorem debug_toggle_parity_fails :
    debugOpenAfter (mainInit (fun _ _ => 0) ⟨1⟩ ⟨255, 0, 0, 255⟩)
        [⟨true, fun _ => false⟩]
      ≠ !(mainInit (fun _ _ => 0) ⟨1⟩ ⟨255, 0, 0, 255⟩).isDebugOpen := by
  decide

/-- C7 as amended: for every initial value of `isDebugOpen` and every number
`n` of frames in each of which the toggle key press is reported and
`ImGui::Begin` leaves the flag as the key check left it, the flag has its
initial value when `n` is even and the opposite value when `n` is odd; the key
check of a frame in which the key press is not reported leaves the flag
unchanged. -/
theorem debug_toggle_parity (s : MainState) (inputs : List FrameInput)
    (hkey : ∀ input ∈ inputs, input.keyGravePressed = true)
    (hbegin : ∀ input ∈ inputs, ∀ v, input.imguiBegin v = v) :
    debugOpenAfter s inputs =
        (if inputs.length % 2 = 0 then s.isDebugOpen else !s.isDebugOpen)
    ∧ ∀ v, keyCheck false v = v :=
  ⟨debugOpenAfter_toggles s inputs hkey hbegin, fun _ => rfl⟩

theorem debug_toggle_parity_witness :
    debugOpenAfter (mainInit fullLookup ⟨1⟩ ⟨255, 0, 0, 255⟩)
        [⟨true, id⟩, ⟨true, id⟩, ⟨true, id⟩] = true
    ∧ ∀ v, keyCheck false v = v :=
  debug_toggle_parity (mainInit fullLookup ⟨1⟩ ⟨255, 0, 0, 255⟩)
    [⟨true, id⟩, ⟨true, id⟩, ⟨true, id⟩]
    (by simp) (by simp)

/-- C8: every loop iteration, whatever the state and the input, first polls the
UI events, then makes one write of three floats to the view-position location,
then runs `UpdateLight` once for every light in the order of the vector, and
only then makes the calls of the UI step and of the draw step, none of which
writes a uniform. -/
theorem frame_pushes_view_then_lights (s : MainState) (input : FrameInput) :
    (frame s input).2 =
        [.ImGui_ImplRaylib_ProcessEvents,
          .SetShaderValue s.shader s.viewLoc
            (.vec3 s.position.x s.position.y s.position.z)]
        ++ s.lights.flatMap (render.UpdateLight s.shader)
        ++ ((uiFrame input s.isDebugOpen).2 ++ drawFrame s)
    ∧ ((uiFrame input s.isDebugOpen).2 ++ drawFrame s).all Call.isUiOrDraw = true
    ∧ ((uiFrame input s.isDebugOpen).2 ++ drawFrame s).all
        (fun c => !c.isUniformWrite) = true
    ∧ (s.lights.flatMap (render.UpdateLight s.shader)).all Call.isUniformWrite = true
    ∧ (s.lights.flatMap (render.UpdateLight s.shader)).length = 5 * s.lights.length := by
  refine ⟨?_, rfl, rfl, ?_, ?_⟩
  · simp [frame, viewPositionWrite, List.append_assoc]
  · induction s.lights with
    | nil => rfl
    | cons l rest ih =>
      rw [List.flatMap_cons, List.all_append, ih]
      simp [render.UpdateLight, Call.isUniformWrite]
  · induction s.lights with
    | nil => rfl
    | cons l rest ih =>
      rw [List.flatMap_cons, List.length_append, ih, List.length_cons]
      simp [render.UpdateLight]; omega

/-- C9 (the code at the failing input): in every frame of `main` the three
floats written to the location of `viewPos` are (0, 3, 0), the components of
the variable `position` (the model position, also the camera target), while
the position of the camera `main` constructs is (15, 6, 0). -/
theorem view_position_write_uses_model_position (lookup : Lookup) (shader : Shader)
    (red : Color) (earlier : List FrameInput) (input : FrameInput) :
    (frame (runFrames (mainInit lookup shader red) earlier).1 input).2[1]? =
        some (.SetShaderValue shader (lookup shader "viewPos") (.vec3 0 3 0))
    ∧ (runFrames (mainInit lookup shader red) earlier).1.camera.position = ⟨15, 6, 0⟩
    ∧ (⟨15, 6, 0⟩ : Vector3) ≠ ⟨0, 3, 0⟩ := by
  refine ⟨?_, ?_, by decide⟩
  · have hp : (runFrames (mainInit lookup shader red) earlier).1.position = ⟨0, 3, 0⟩ :=
      runFrames_position (mainInit lookup shader red) earlier
    have hs : (runFrames (mainInit lookup shader red) earlier).1.shader = shader :=
      runFrames_shader (mainInit lookup shader red) earlier
    have hv : (runFrames (mainInit lookup shader red) earlier).1.viewLoc
        = lookup shader "viewPos" :=
      runFrames_viewLoc (mainInit lookup shader red) earlier
    simp [frame, viewPositionWrite, hp, hs, hv]
  · rw [runFrames_camera]; rfl

/-! ## Decimal numerals and uniform names -/

theorem digitChar_value (d : Nat) (h : d < 10) : (Nat.digitChar d).toNat - 48 = d := by
  interval_cases d <;> rfl

theorem decimalValue_toDigitsCore (fuel n : Nat) (ds : List Char) (h : n < fuel) :
    (Nat.toDigitsCore 10 fuel n ds).foldl (fun acc c => acc * 10 + (c.toNat - 48)) 0 =
      ds.foldl (fun acc c => acc * 10 + (c.toNat - 48)) n := by
  induction fuel generalizing n ds with
  | zero => omega
  | succ fuel ih =>
    have hd := digitChar_value (n % 10) (Nat.mod_lt n (by decide))
    unfold Nat.toDigitsCore
    by_cases h0 : n / 10 = 0
    · have hn : n % 10 = n := by omega
      simp only [h0, if_true, List.foldl_cons, Nat.zero_mul, Nat.zero_add]
      rw [hd, hn]
    · simp only [h0, if_false]
      rw [ih (n / 10) _ (by omega)]
      simp only [List.foldl_cons, hd]
      congr 1
      omega

theorem decimalValue_toString (n : Nat) : decimalValue (toString n).data = n := by
  show decimalValue (Nat.toDigits 10 n).asString.data = n
  show (Nat.toDigitsCore 10 (n + 1) n []).foldl
    (fun acc c => acc * 10 + (c.toNat - 48)) 0 = n
  rw [decimalValue_toDigitsCore _ _ _ (Nat.lt_succ_self n)]
  rfl

theorem toString_nat_injective (m n : Nat) (h : toString m = toString n) : m = n := by
  have := congrArg (fun s => decimalValue s.data) h
  simpa [decimalValue_toString] using this

theorem uniformName_injective (i j : Nat) (field : String)
    (h : render.uniformName i field = render.uniformName j field) : i = j := by
  unfold render.uniformName at h
  have h1 := congrArg String.data h
  simp only [String.data_append] at h1
  have h2 := List.append_cancel_right (List.append_cancel_right h1)
  have h3 := List.append_cancel_left h2
  exact toString_nat_injective i j (String.ext h3)

/-! ## Runs of `CreateLight` -/

theorem createRun_cons (lookup : Lookup) (request : Shader × render.Light)
    (rest : List (Shader × render.Light)) (lightIndex : Nat) :
    createRun lookup (request :: rest) lightIndex =
      (lightIndex, render.CreateLight lookup request.1 request.2 lightIndex) ::
        createRun lookup rest ((lightIndex + 1) % 2 ^ 32) := rfl

/-- The `k`-th call of a run that starts with the counter at `lightIndex` uses
the index `(lightIndex + k) % 2 ^ 32`. -/
theorem createRun_getElem_eq (lookup : Lookup) (requests : List (Shader × render.Light))
    (lightIndex k : Nat) (request : Shader × render.Light)
    (hidx : lightIndex < 2 ^ 32) (hreq : requests[k]? = some request) :
    (createRun lookup requests lightIndex)[k]? =
      some ((lightIndex + k) % 2 ^ 32,
        render.CreateLight lookup request.1 request.2 ((lightIndex + k) % 2 ^ 32)) := by
  induction requests generalizing lightIndex k with
  | nil => simp at hreq
  | cons head rest ih =>
    rw [createRun_cons]
    cases k with
    | zero =>
      simp only [List.getElem?_cons_zero, Option.some.injEq] at hreq
      subst hreq
      have h0 : (lightIndex + 0) % 2 ^ 32 = lightIndex := Nat.mod_eq_of_lt hidx
      rw [h0, List.getElem?_cons_zero]
    | succ k =>
      simp only [List.getElem?_cons_succ] at hreq
      rw [List.getElem?_cons_succ,
        ih ((lightIndex + 1) % 2 ^ 32) k (Nat.mod_lt _ (by decide)) hreq]
      have hmod : ((lightIndex + 1) % 2 ^ 32 + k) % 2 ^ 32 = (lightIndex + (k + 1)) % 2 ^ 32 := by
        rw [Nat.mod_add_mod]; congr 1; omega
      rw [hmod]

theorem indexUsed_eq (lookup : Lookup) (requests : List (Shader × render.Light))
    (k : Nat) (hk : k < requests.length) :
    indexUsed lookup requests k = some (k % 2 ^ 32) := by
  unfold indexUsed
  rw [createRun_getElem_eq lookup requests 0 k requests[k] (by decide)
    (List.getElem?_eq_getElem hk)]
  simp

theorem bindingsOf_eq (lookup : Lookup) (requests : List (Shader × render.Light))
    (k : Nat) (request : Shader × render.Light) (hreq : requests[k]? = some request) :
    bindingsOf lookup requests k =
      some (render.CreateLight lookup request.1 request.2 (k % 2 ^ 32)).light.bindings := by
  unfold bindingsOf
  rw [createRun_getElem_eq lookup requests 0 k request (by decide) hreq]
  simp

/-! ## Claims about `CreateLight` -/

/-- C1 fails as stated: in a run of `2 ^ 32 + 1` calls of `CreateLight` the
32 bit counter has wrapped around when the last call is made, so the first call
and the last call both format their uniform names with the index 0. -/
theorem lightIndex_reused_after_wraparound :
    indexUsed (fun _ _ => 0)
        (List.replicate (2 ^ 32 + 1) (⟨1⟩, { color := ⟨255, 0, 0, 255⟩ })) 0 = some 0
    ∧ indexUsed (fun _ _ => 0)
        (List.replicate (2 ^ 32 + 1) (⟨1⟩, { color := ⟨255, 0, 0, 255⟩ })) (2 ^ 32) = some 0 := by
  constructor
  · rw [indexUsed_eq _ _ _ (by rw [List.length_replicate]; decide)]
    rfl
  · rw [indexUsed_eq _ _ _ (by rw [List.length_replicate]; decide)]
    rfl

/-- C1 as amended: in every run of at most `2 ^ 32` calls of `CreateLight` in
one process, a light registered before another one has its uniform names
formatted with a strictly smaller value of the counter (the position of its
call in the run), so that no index is used for two of these registrations. -/
theorem lightIndex_strictly_increasing (lookup : Lookup)
    (requests : List (Shader × render.Light)) (i j : Nat)
    (hlen : requests.length ≤ 2 ^ 32) (hij : i < j) (hj : j < requests.length) :
    ∃ a b, indexUsed lookup requests i = some a ∧ indexUsed lookup requests j = some b
      ∧ a = i ∧ b = j ∧ a < b ∧ a ≠ b := by
  refine ⟨i, j, ?_, ?_, rfl, rfl, hij, Nat.ne_of_lt hij⟩
  · rw [indexUsed_eq _ _ _ (by omega), Nat.mod_eq_of_lt (by omega)]
  · rw [indexUsed_eq _ _ _ hj, Nat.mod_eq_of_lt (by omega)]

theorem lightIndex_strictly_increasing_witness :
    ∃ a b,
      indexUsed (fun _ _ => 0)
          [(⟨1⟩, { color := ⟨255, 0, 0, 255⟩ }), (⟨1⟩, { color := ⟨0, 0, 0, 255⟩ }),
            (⟨2⟩, { color := ⟨255, 0, 0, 255⟩ })] 0 = some a
      ∧ indexUsed (fun _ _ => 0)
          [(⟨1⟩, { color := ⟨255, 0, 0, 255⟩ }), (⟨1⟩, { color := ⟨0, 0, 0, 255⟩ }),
            (⟨2⟩, { color := ⟨255, 0, 0, 255⟩ })] 2 = some b
      ∧ a = 0 ∧ b = 2 ∧ a < b ∧ a ≠ b :=
  lightIndex_strictly_increasing (fun _ _ => 0)
    [(⟨1⟩, { color := ⟨255, 0, 0, 255⟩ }), (⟨1⟩, { color := ⟨0, 0, 0, 255⟩ }),
      (⟨2⟩, { color := ⟨255, 0, 0, 255⟩ })] 0 2 (by decide) (by decide) (by decide)

/-- C2 fails as stated: the call number `2 ^ 32` (0-based) of a process run
looks up the names of index 0, `"lights[0].enabled"` and so on, not the names
of index 4294967296, because the counter is reduced modulo `2 ^ 32`. -/
theorem createLight_names_wrap_around :
    ((createRun (fun _ _ => 0)
        (List.replicate (2 ^ 32 + 1) (⟨1⟩, { color := ⟨255, 0, 0, 255⟩ })) 0)[2 ^ 32]?).map
        (fun entry => entry.2.calls) =
      some [ .GetShaderLocation ⟨1⟩ "lights[0].enabled",
             .GetShaderLocation ⟨1⟩ "lights[0].type",
             .GetShaderLocation ⟨1⟩ "lights[0].position",
             .GetShaderLocation ⟨1⟩ "lights[0].target",
             .GetShaderLocation ⟨1⟩ "lights[0].color" ]
    ∧ "lights[0].enabled" ≠ "lights[4294967296].enabled" := by
  refine ⟨?_, by decide⟩
  rw [createRun_getElem_eq _ _ 0 (2 ^ 32) (⟨1⟩, { color := ⟨255, 0, 0, 255⟩ }) (by decide)
    (by rw [List.getElem?_replicate]; rfl)]
  rfl

/-- C2 as amended: for every `k < 2 ^ 32`, every shader and every light, the
`k`-th call (0-based, counted over all calls of the process whatever shader they
are given) of `CreateLight` looks up exactly the five names
`lights[k].enabled`, `lights[k].type`, `lights[k].position`, `lights[k].target`
and `lights[k].color` in the shader it is given, stores the five results in
`enabledBinding`, `typeBinding`, `positionBinding`, `targetBinding` and
`colorBinding`, leaves the other members of the light alone, and sets the
counter to `(k + 1) % 2 ^ 32`: it increases it by exactly one, except that the
call number `2 ^ 32 - 1` takes it back to 0. -/
theorem createLight_kth_call (lookup : Lookup) (requests : List (Shader × render.Light))
    (k : Nat) (shader : Shader) (light : render.Light)
    (hk : k < 2 ^ 32) (hreq : requests[k]? = some (shader, light)) :
    ∃ created, (createRun lookup requests 0)[k]? = some (k, created)
      ∧ created.calls =
          [ .GetShaderLocation shader ("lights[" ++ toString k ++ "].enabled"),
            .GetShaderLocation shader ("lights[" ++ toString k ++ "].type"),
            .GetShaderLocation shader ("lights[" ++ toString k ++ "].position"),
            .GetShaderLocation shader ("lights[" ++ toString k ++ "].target"),
            .GetShaderLocation shader ("lights[" ++ toString k ++ "].color") ]
      ∧ created.light =
          { light with
            bindings :=
              { enabledBinding := lookup shader ("lights[" ++ toString k ++ "].enabled")
                typeBinding := lookup shader ("lights[" ++ toString k ++ "].type")
                positionBinding := lookup shader ("lights[" ++ toString k ++ "].position")
                targetBinding := lookup shader ("lights[" ++ toString k ++ "].target")
                colorBinding := lookup shader ("lights[" ++ toString k ++ "].color") } }
      ∧ created.lightIndex = (k + 1) % 2 ^ 32
      ∧ (k + 1 < 2 ^ 32 → created.lightIndex = k + 1)
      ∧ (k + 1 = 2 ^ 32 → created.lightIndex = 0) := by
  have hname : ∀ field : String,
      render.uniformName k field = "lights[" ++ toString k ++ ("]." ++ field) := by
    intro field
    simp [render.uniformName, String.append_assoc]
  refine ⟨render.CreateLight lookup shader light k, ?_, ?_, ?_, rfl, ?_, ?_⟩
  · have h := createRun_getElem_eq lookup requests 0 k (shader, light) (by decide) hreq
    rw [Nat.zero_add, Nat.mod_eq_of_lt hk] at h
    exact h
  · simp only [render.CreateLight, hname]
    rfl
  · simp only [render.CreateLight, hname]
    rfl
  · intro h
    exact Nat.mod_eq_of_lt h
  · intro h
    show (k + 1) % 2 ^ 32 = 0
    rw [h, Nat.mod_self]

theorem createLight_kth_call_witness :
    ∃ created,
      (createRun sampleLookup
          [(⟨1⟩, { color := ⟨255, 0, 0, 255⟩ }), (⟨2⟩, { color := ⟨0, 0, 9, 255⟩ })] 0)[1]? =
        some (1, created)
      ∧ created.calls =
          [ .GetShaderLocation ⟨2⟩ ("lights[" ++ toString 1 ++ "].enabled"),
            .GetShaderLocation ⟨2⟩ ("lights[" ++ toString 1 ++ "].type"),
            .GetShaderLocation ⟨2⟩ ("lights[" ++ toString 1 ++ "].position"),
            .GetShaderLocation ⟨2⟩ ("lights[" ++ toString 1 ++ "].target"),
            .GetShaderLocation ⟨2⟩ ("lights[" ++ toString 1 ++ "].color") ]
      ∧ created.light =
          { ({ color := ⟨0, 0, 9, 255⟩ } : render.Light) with
            bindings :=
              { enabledBinding := sampleLookup ⟨2⟩ ("lights[" ++ toString 1 ++ "].enabled")
                typeBinding := sampleLookup ⟨2⟩ ("lights[" ++ toString 1 ++ "].type")
                positionBinding := sampleLookup ⟨2⟩ ("lights[" ++ toString 1 ++ "].position")
                targetBinding := sampleLookup ⟨2⟩ ("lights[" ++ toString 1 ++ "].target")
                colorBinding := sampleLookup ⟨2⟩ ("lights[" ++ toString 1 ++ "].color") } }
      ∧ created.lightIndex = (1 + 1) % 2 ^ 32
      ∧ (1 + 1 < 2 ^ 32 → created.lightIndex = 1 + 1)
      ∧ (1 + 1 = 2 ^ 32 → created.lightIndex = 0) :=
  createLight_kth_call sampleLookup
    [(⟨1⟩, { color := ⟨255, 0, 0, 255⟩ }), (⟨2⟩, { color := ⟨0, 0, 9, 255⟩ })] 1 ⟨2⟩
    { color := ⟨0, 0, 9, 255⟩ } (by decide) (by decide)

/-- C10 fails as stated: against a shader that declares none of the uniforms,
every lookup gives the sentinel `-1`, and two different lights registered one
after the other receive the same binding set, five times `-1`. -/
theorem bindings_equal_when_uniforms_missing :
    bindingsOf emptyLookup
        [(⟨1⟩, { color := ⟨255, 0, 0, 255⟩ }), (⟨1⟩, { color := ⟨0, 0, 255, 255⟩ })] 0 =
      bindingsOf emptyLookup
        [(⟨1⟩, { color := ⟨255, 0, 0, 255⟩ }), (⟨1⟩, { color := ⟨0, 0, 255, 255⟩ })] 1
    ∧ bindingsOf emptyLookup
        [(⟨1⟩, { color := ⟨255, 0, 0, 255⟩ }), (⟨1⟩, { color := ⟨0, 0, 255, 255⟩ })] 0 =
      some ⟨-1, -1, -1, -1, -1⟩ := by
  constructor <;> rfl

/-- C10 as amended: for every run of at most `2 ^ 32` calls of `CreateLight`
against one shader whose lookup never gives the same valid handle to two
different names, two different registrations receive different binding sets
as soon as one of the uniform names of the two lights exists in the shader
(when all of them are missing, both sets consist of the sentinel and are
equal). -/
theorem bindings_distinct_when_resolved (lookup : Lookup) (shader : Shader)
    (lights : List render.Light) (i j : Nat) (field : String)
    (hlen : lights.length ≤ 2 ^ 32) (hij : i < j) (hj : j < lights.length)
    (hinj : ∀ n1 n2, -1 < lookup shader n1 → lookup shader n1 = lookup shader n2 → n1 = n2)
    (hfield : field ∈ ["enabled", "type", "position", "target", "color"])
    (hres : -1 < lookup shader (render.uniformName i field)
      ∨ -1 < lookup shader (render.uniformName j field)) :
    ∃ bi bj, bindingsOf lookup (lights.map (fun l => (shader, l))) i = some bi
      ∧ bindingsOf lookup (lights.map (fun l => (shader, l))) j = some bj
      ∧ bi ≠ bj := by
  have hi : i < lights.length := by omega
  have hne : lookup shader (render.uniformName i field)
      ≠ lookup shader (render.uniformName j field) := by
    intro heq
    have hname : render.uniformName i field = render.uniformName j field := by
      rcases hres with h | h
      · exact hinj _ _ h heq
      · exact (hinj _ _ h heq.symm).symm
    have := uniformName_injective i j field hname
    omega
  have hgi : (lights.map (fun l => (shader, l)))[i]? = some (shader, lights[i]) := by
    simp [List.getElem?_eq_getElem hi]
  have hgj : (lights.map (fun l => (shader, l)))[j]? = some (shader, lights[j]) := by
    simp [List.getElem?_eq_getElem hj]
  refine ⟨_, _, bindingsOf_eq lookup _ i _ hgi, bindingsOf_eq lookup _ j _ hgj, ?_⟩
  rw [Nat.mod_eq_of_lt (show i < 2 ^ 32 by omega), Nat.mod_eq_of_lt (show j < 2 ^ 32 by omega)]
  intro hb
  simp only [render.CreateLight] at hb
  injection hb with h1 h2 h3 h4 h5
  simp only [List.mem_cons, List.mem_singleton, List.not_mem_nil, or_false] at hfield
  rcases hfield with h | h | h | h | h <;> subst h
  · exact hne h1
  · exact hne h2
  · exact hne h3
  · exact hne h4
  · exact hne h5

theorem bindings_distinct_when_resolved_witness :
    ∃ bi bj,
      bindingsOf sampleLookup
          ([{ color := ⟨255, 0, 0, 255⟩ }, { color := ⟨0, 0, 9, 255⟩ }].map
            (fun l => ((⟨1⟩ : Shader), l))) 0 = some bi
      ∧ bindingsOf sampleLookup
          ([{ color := ⟨255, 0, 0, 255⟩ }, { color := ⟨0, 0, 9, 255⟩ }].map
            (fun l => ((⟨1⟩ : Shader), l))) 1 = some bj
      ∧ bi ≠ bj :=
  bindings_distinct_when_resolved sampleLookup ⟨1⟩
    [{ color := ⟨255, 0, 0, 255⟩ }, { color := ⟨0, 0, 9, 255⟩ }] 0 1 "color"
    (by decide) (by decide) (by decide)
    (by
      intro n1 n2 h1 h2
      unfold sampleLookup at h1 h2
      by_cases c1 : n1 = "lights[1].color"
      · by_cases c2 : n2 = "lights[1].color"
        · rw [c1, c2]
        · simp [c1, c2] at h2
      · simp [c1] at h1)
    (by decide) (Or.inr (by decide))

/-! ## The binary32 division of a colour channel -/

/-- The rounded quotient, times the denominator, is within half a denominator
of the numerator. -/
theorem roundNearestEven_bounds (num den : Nat) (hden : 0 < den) :
    2 * (roundNearestEven num den * den) ≤ 2 * num + den
    ∧ 2 * num ≤ 2 * (roundNearestEven num den * den) + den := by
  have hdm : den * (num / den) + num % den = num := Nat.div_add_mod num den
  have hr : num % den < den := Nat.mod_lt num hden
  have hq : num / den * den = den * (num / den) := Nat.mul_comm _ _
  have hq1 : (num / den + 1) * den = den * (num / den) + den := by rw [Nat.add_mul, hq]; simp
  unfold roundNearestEven
  simp only
  split_ifs <;> first | (rw [hq]; omega) | (rw [hq1]; omega)

/-- A quotient that does not exceed `m` does not round above `m`. -/
theorem roundNearestEven_le (num den m : Nat) (hden : 0 < den) (h : num ≤ den * m) :
    roundNearestEven num den ≤ m := by
  have hb := (roundNearestEven_bounds num den hden).1
  by_contra hlt
  have h1 : m + 1 ≤ roundNearestEven num den := by omega
  have h2 : (m + 1) * den ≤ roundNearestEven num den * den := Nat.mul_le_mul_right den h1
  have h3 : (m + 1) * den = den * m + den := by rw [Nat.add_mul, Nat.mul_comm m den]; simp
  omega

/-- An exact quotient is not changed by the rounding. -/
theorem roundNearestEven_mul (den m : Nat) (hden : 0 < den) :
    roundNearestEven (den * m) den = m := by
  unfold roundNearestEven
  simp [Nat.mul_mod_right, Nat.mul_div_cancel_left m hden, hden]

/-- The search does not stop before the first exponent that fits. -/
theorem f32ShiftFrom_ge (a b bound : Nat) (hnot : ∀ k, k < bound → ¬ 2 ^ 23 * b ≤ a * 2 ^ k)
    (fuel start : Nat) (hfuel : bound ≤ start + fuel) :
    bound ≤ f32ShiftFrom a b fuel start := by
  induction fuel generalizing start with
  | zero => simpa [f32ShiftFrom] using hfuel
  | succ fuel ih =>
    unfold f32ShiftFrom
    by_cases hc : 2 ^ 23 * b ≤ a * 2 ^ start
    · simp only [hc, if_true]
      by_contra hlt
      exact hnot start (by omega) hc
    · simp only [hc, if_false]
      exact ih (start + 1) (by omega)

/-- Below 1 the scaling exponent of a binary32 quotient is at least 24. -/
theorem f32Shift_ge (a b : Nat) (hab : a < b) : 24 ≤ f32Shift a b := by
  have hnot : ∀ k, k < 24 → ¬ 2 ^ 23 * b ≤ a * 2 ^ k := by
    intro k hk hle
    have hpow : 2 ^ k ≤ 2 ^ 23 := Nat.pow_le_pow_right (by decide) (by omega)
    have h1 : a * 2 ^ k ≤ a * 2 ^ 23 := Nat.mul_le_mul_left a hpow
    have h2 : a * 2 ^ 23 < b * 2 ^ 23 := Nat.mul_lt_mul_of_pos_right hab (by decide)
    have h3 : 2 ^ 23 * b = b * 2 ^ 23 := Nat.mul_comm _ _
    omega
  exact f32ShiftFrom_ge a b 24 hnot 150 0 (by decide)

theorem f32div_zero (b : Nat) : f32div 0 b = 0 := by simp [f32div]

theorem f32div_self (b : Nat) (hb : 0 < b) : f32div b b = 1 := by
  unfold f32div
  rw [if_neg (by omega), roundNearestEven_mul b _ hb]
  have : ((2 ^ f32Shift b b : Nat) : ℚ) ≠ 0 := by positivity
  push_cast at this ⊢
  exact div_self this

theorem f32div_nonneg (a b : Nat) : 0 ≤ f32div a b := by
  unfold f32div
  split_ifs
  · exact le_refl 0
  · positivity

theorem f32div_le_one (a b : Nat) (hb : 0 < b) (hab : a ≤ b) : f32div a b ≤ 1 := by
  unfold f32div
  split_ifs
  · exact zero_le_one
  · have h := roundNearestEven_le (a * 2 ^ f32Shift a b) b (2 ^ f32Shift a b) hb
      (Nat.mul_le_mul_right _ hab)
    rw [div_le_one (by positivity)]
    exact_mod_cast h

/-- The binary32 quotient of a channel is within half a unit in the last place
of the exact quotient. -/
theorem f32div_error (a b : Nat) (hb : 0 < b) (hab : a ≤ b) :
    |f32div a b - (a : ℚ) / b| ≤ 1 / 2 ^ 25 := by
  rcases Nat.eq_zero_or_pos a with h0 | hpos
  · subst h0; simp [f32div_zero]
  rcases Nat.eq_or_lt_of_le hab with heq | hlt
  · subst heq
    rw [f32div_self a hb, div_self (by exact_mod_cast (Nat.pos_iff_ne_zero.mp hb))]
    simp
  have hk := f32Shift_ge a b hlt
  have hbnd := roundNearestEven_bounds (a * 2 ^ f32Shift a b) b hb
  unfold f32div
  rw [if_neg (by omega)]
  generalize f32Shift a b = k at hk hbnd
  generalize roundNearestEven (a * 2 ^ k) b = m at hbnd
  obtain ⟨h1, h2⟩ := hbnd
  have hbq : (0 : ℚ) < b := by exact_mod_cast hb
  have hkq : (0 : ℚ) < 2 ^ k := by positivity
  have h1q : 2 * ((m : ℚ) * b) ≤ 2 * (a * 2 ^ k) + b := by exact_mod_cast h1
  have h2q : 2 * ((a : ℚ) * 2 ^ k) ≤ 2 * (m * b) + b := by exact_mod_cast h2
  have hpow : (2 : ℚ) ^ 25 ≤ 2 * 2 ^ k := by
    have : (2 : ℚ) ^ 24 ≤ 2 ^ k := pow_le_pow_right₀ (by norm_num) hk
    linarith
  have hdiff : (m : ℚ) / 2 ^ k - a / b = (m * b - a * 2 ^ k) / (2 ^ k * b) := by
    field_simp
    ring
  rw [hdiff, abs_le]
  constructor
  · rw [le_div_iff₀ (by positivity)]
    have : -(1 / 2 ^ 25 : ℚ) * (2 ^ k * b) ≤ -(b / 2) := by
      have : (b : ℚ) / 2 ≤ 1 / 2 ^ 25 * (2 ^ k * b) := by
        rw [div_le_iff₀ (by norm_num)]
        have : (b : ℚ) * 2 ^ 25 ≤ b * (2 * 2 ^ k) := mul_le_mul_of_nonneg_left hpow hbq.le
        field_simp
        linarith
      linarith
    linarith
  · rw [div_le_iff₀ (by positivity)]
    have : (b : ℚ) / 2 ≤ 1 / 2 ^ 25 * (2 ^ k * b) := by
      rw [div_le_iff₀ (by norm_num)]
      have : (b : ℚ) * 2 ^ 25 ≤ b * (2 * 2 ^ k) := mul_le_mul_of_nonneg_left hpow hbq.le
      field_simp
      linarith
    linarith

theorem f32div_128_255 : f32div 128 255 = 8421505 / 16777216 := by
  have hk : f32Shift 128 255 = 24 := by decide
  have hm : roundNearestEven (128 * 2 ^ 24) 255 = 8421505 := by decide
  unfold f32div
  rw [if_neg (by decide), hk, hm]
  norm_num

/-- C4: for every light whose colour channels are 8 bit values, the fifth write
of `UpdateLight` carries four floats, one per channel; the float pushed for a
channel `c` is the binary32 quotient of `c` by 255, which lies in [0, 1] and
is within 2^-25 (half a unit in the last place) of the exact `c / 255`; a
channel 255 is pushed as exactly 1, a channel 0 as exactly 0, and a channel
128 as a value within 0.001 of 0.502. -/
theorem color_channels_normalized (shader : Shader) (light : render.Light)
    (hcolor : light.color.WellFormed) :
    ∃ r g b a,
      (render.UpdateLight shader light)[4]? =
        some (.SetShaderValue shader light.bindings.colorBinding (.vec4 r g b a))
      ∧ ∀ p ∈ [(light.color.r, r), (light.color.g, g), (light.color.b, b), (light.color.a, a)],
          p.2 = f32div p.1 255
          ∧ 0 ≤ p.2 ∧ p.2 ≤ 1
          ∧ |p.2 - (p.1 : ℚ) / 255| ≤ 1 / 2 ^ 25
          ∧ (p.1 = 255 → p.2 = 1)
          ∧ (p.1 = 0 → p.2 = 0)
          ∧ (p.1 = 128 → |p.2 - 502 / 1000| < 1 / 1000) := by
  have key : ∀ c : Nat, c ≤ 255 →
      f32div c 255 = f32div c 255
      ∧ 0 ≤ f32div c 255 ∧ f32div c 255 ≤ 1
      ∧ |f32div c 255 - (c : ℚ) / 255| ≤ 1 / 2 ^ 25
      ∧ (c = 255 → f32div c 255 = 1)
      ∧ (c = 0 → f32div c 255 = 0)
      ∧ (c = 128 → |f32div c 255 - 502 / 1000| < 1 / 1000) := by
    intro c hc
    refine ⟨rfl, f32div_nonneg c 255, f32div_le_one c 255 (by decide) hc, ?_, ?_, ?_, ?_⟩
    · have := f32div_error c 255 (by decide) hc
      simpa using this
    · intro h; subst h; exact f32div_self 255 (by decide)
    · intro h; subst h; exact f32div_zero 255
    · intro h; subst h
      rw [f32div_128_255, abs_lt]
      constructor <;> norm_num
  obtain ⟨hr, hg, hb, ha⟩ := hcolor
  refine ⟨f32div light.color.r 255, f32div light.color.g 255, f32div light.color.b 255,
    f32div light.color.a 255, rfl, ?_⟩
  intro p hp
  simp only [List.mem_cons, List.mem_singleton, List.not_mem_nil, or_false] at hp
  rcases hp with h | h | h | h <;> subst h
  · exact key _ hr
  · exact key _ hg
  · exact key _ hb
  · exact key _ ha

theorem color_channels_normalized_witness :
    ∃ r g b a,
      (render.UpdateLight ⟨1⟩
          { color := ⟨255, 0, 128, 255⟩, bindings := ⟨0, 1, 2, 3, 4⟩ })[4]? =
        some (.SetShaderValue ⟨1⟩ 4 (.vec4 r g b a))
      ∧ ∀ p ∈ [(255, r), (0, g), (128, b), (255, a)],
          p.2 = f32div p.1 255
          ∧ 0 ≤ p.2 ∧ p.2 ≤ 1
          ∧ |p.2 - (p.1 : ℚ) / 255| ≤ 1 / 2 ^ 25
          ∧ (p.1 = 255 → p.2 = 1)
          ∧ (p.1 = 0 → p.2 = 0)
          ∧ (p.1 = 128 → |p.2 - 502 / 1000| < 1 / 1000) :=
  color_channels_normalized ⟨1⟩ { color := ⟨255, 0, 128, 255⟩, bindings := ⟨0, 1, 2, 3, 4⟩ }
    ⟨by decide, by decide, by decide, by decide⟩

/-- C5: the light `main` registers is a Point light at (15, 6, 0) with colour
RED (255, 0, 0, 255), enabled.  When the five names `lights[0].enabled`,
`lights[0].type`, `lights[0].position`, `lights[0].target`, `lights[0].color`
resolve to valid and pairwise different locations of the shader, then after
`CreateLight` and one `UpdateLight` the uniform at the light's colour binding
holds (1.0, 0.0, 0.0, 1.0) and the uniform at its enabled binding holds the
integer 1, whatever the uniform table held before. -/
theorem main_light_end_to_end (lookup : Lookup) (shader : Shader) (table : UniformTable)
    (hvalid : -1 < lookup shader "lights[0].enabled" ∧ -1 < lookup shader "lights[0].type"
      ∧ -1 < lookup shader "lights[0].position" ∧ -1 < lookup shader "lights[0].target"
      ∧ -1 < lookup shader "lights[0].color")
    (hdistinct : [lookup shader "lights[0].enabled", lookup shader "lights[0].type",
      lookup shader "lights[0].position", lookup shader "lights[0].target",
      lookup shader "lights[0].color"].Nodup) :
    ∃ light, (mainInit lookup shader RED).lights = [light]
      ∧ light =
          (render.CreateLight lookup shader
            { type := .Point, position := ⟨15, 6, 0⟩, color := ⟨255, 0, 0, 255⟩,
              enabled := true } 0).light
      ∧ applyCalls table (render.UpdateLight shader light) shader light.bindings.colorBinding
          = some (.vec4 1 0 0 1)
      ∧ applyCalls table (render.UpdateLight shader light) shader light.bindings.enabledBinding
          = some (.int 1) := by
  obtain ⟨he, ht, hp, hg, hc⟩ := hvalid
  simp only [List.nodup_cons, List.mem_cons, List.mem_singleton, List.not_mem_nil, not_or,
    or_false, List.nodup_nil, and_true, not_false_eq_true] at hdistinct
  obtain ⟨⟨h1, h2, h3, h4⟩, -⟩ := hdistinct
  have e0 : render.uniformName 0 "enabled" = "lights[0].enabled" := rfl
  have e1 : render.uniformName 0 "type" = "lights[0].type" := rfl
  have e2 : render.uniformName 0 "position" = "lights[0].position" := rfl
  have e3 : render.uniformName 0 "target" = "lights[0].target" := rfl
  have e4 : render.uniformName 0 "color" = "lights[0].color" := rfl
  refine ⟨_, rfl, rfl, ?_, ?_⟩
  · simp [applyCalls, applyCall, SetShaderValue, render.UpdateLight, render.CreateLight,
      mainLight, RED, e0, e1, e2, e3, e4, he, ht, hp, hg, hc, f32div_zero,
      f32div_self 255 (by decide)]
  · simp [applyCalls, applyCall, SetShaderValue, render.UpdateLight, render.CreateLight,
      mainLight, RED, e0, e1, e2, e3, e4, he, ht, hp, hg, hc, h1, h2, h3, h4]

theorem main_light_end_to_end_witness :
    ∃ light, (mainInit fullLookup ⟨1⟩ RED).lights = [light]
      ∧ light =
          (render.CreateLight fullLookup ⟨1⟩
            { type := .Point, position := ⟨15, 6, 0⟩, color := ⟨255, 0, 0, 255⟩,
              enabled := true } 0).light
      ∧ applyCalls emptyTable (render.UpdateLight ⟨1⟩ light) ⟨1⟩ light.bindings.colorBinding
          = some (.vec4 1 0 0 1)
      ∧ applyCalls emptyTable (render.UpdateLight ⟨1⟩ light) ⟨1⟩ light.bindings.enabledBinding
          = some (.int 1) :=
  main_light_end_to_end fullLookup ⟨1⟩ emptyTable (by decide) (by decide)

end CansatVisual
